import Mathlib

/-
Verification development for the visible-element locator extractor
(`src/index.ts`, `extractVisibleElementLocators`).

The embedding models one document (nested frames run the identical
per-document algorithm, so claims about a single document/frame context
are stated over one `Doc`).  The browser-side DOM API used from the
in-page callbacks (`querySelectorAll`, `getComputedStyle`,
`parentElement`, class lists, `innerText`) is modelled by explicit
fields of `Elem` and by the selector semantics `matchesSel`, restricted
to the selector grammar the generator actually emits (`Sel`).  A
selector string whose interpolated value would make the CSS engine
throw a syntax error (quote characters in attribute values, malformed
identifiers) is modelled by the well-formedness predicates `identWf` /
`attrValWf`: evaluating such a selector yields the thrown-error branch
of the corresponding call site.

JavaScript string operations are modelled at the character-list level
(`jsTrim` for `String.prototype.trim`, `truncate n` for
`substring(0, n)`, `jsToLower` for `toLowerCase`).

Numbers: bounding-box sizes and `minElementSize` are modelled as `Int`
(only order comparisons against the threshold occur); `parseFloat` of
the computed opacity is modelled as `Option Int` scaled so that only
its sign matters (`none` is NaN, for which `NaN > 0` is false).
-/

namespace Scrape

/-- JavaScript whitespace (the characters relevant to `trim`). -/
def isJsWs (c : Char) : Bool :=
  c = ' ' || c = '\t' || c = '\n' || c = '\r'

/-- Model of JavaScript `String.prototype.trim`. -/
def jsTrim (s : String) : String :=
  ⟨((s.data.dropWhile isJsWs).reverse.dropWhile isJsWs).reverse⟩

/-- Model of JavaScript `substring(0, n)`. -/
def truncate (n : Nat) (s : String) : String :=
  ⟨s.data.take n⟩

/-- Model of JavaScript `toLowerCase` (ASCII). -/
def jsToLower (s : String) : String :=
  ⟨s.data.map Char.toLower⟩

/-- `s.split(' ')[0]`: the characters before the first space. -/
def firstSpaceToken (s : String) : String :=
  ⟨s.data.takeWhile (· ≠ ' ')⟩

/-- Does the string contain the character? -/
def strHasChar (s : String) (c : Char) : Bool :=
  s.data.contains c

/-- Join strings with a separator. -/
def joinSep (sep : String) : List String → String
  | [] => ""
  | [x] => x
  | x :: xs => x ++ sep ++ joinSep sep xs

/-- An element of the rendered document, as the in-page callbacks see it.
`evalThrows` models a handle on which any in-page script evaluation
(`evaluate` / `evaluateHandle`) rejects; `boundingBox = none` models a
detached handle or an element without a box. -/
structure Elem where
  tagName : String
  id : String
  attrs : List (String × String)
  classList : List String
  className : String
  innerText : String
  display : String
  visibility : String
  opacity : Option Int
  offsetWidth : Nat
  offsetHeight : Nat
  boundingBox : Option (Int × Int)
  evalThrows : Bool
deriving Repr, DecidableEq

/-- A reasonable default element, for building concrete documents. -/
def baseElem : Elem where
  tagName := "DIV"
  id := ""
  attrs := []
  classList := []
  className := ""
  innerText := ""
  display := "block"
  visibility := "visible"
  opacity := some 1
  offsetWidth := 100
  offsetHeight := 100
  boundingBox := some (100, 100)
  evalThrows := false

instance : Inhabited Elem := ⟨baseElem⟩

/-- A document: elements in document order, with parent links
(`pars[i] = some p` when element `p` is the `parentElement` of `i`). -/
structure Doc where
  elems : List Elem
  pars : List (Option Nat)
deriving Repr

/-- Number of elements. -/
def Doc.n (d : Doc) : Nat := d.elems.length

/-- Element by index. -/
def Doc.el (d : Doc) (i : Nat) : Elem := d.elems.getD i baseElem

/-- `parentElement`. -/
def Doc.parent (d : Doc) (i : Nat) : Option Nat := d.pars.getD i none

/-- `getAttribute` (`none` = attribute absent). -/
def getAttr (e : Elem) (k : String) : Option String :=
  e.attrs.lookup k

/-- `hasAttribute`. -/
def hasAttr (e : Elem) (k : String) : Bool :=
  (getAttr e k).isSome

/-- `el.hasAttribute(k) && el.getAttribute(k)`: present and truthy
(non-empty); yields the value when so. -/
def attrTruthy (e : Elem) (k : String) : Option String :=
  match getAttr e k with
  | some v => if v ≠ "" then some v else none
  | none => none

/-- The children of element `p`, in document order. -/
def childrenOf (d : Doc) (p : Nat) : List Nat :=
  (List.range d.n).filter (fun j => d.parent j = some p)

/-- 1-based position of `i` among the same-tag children of its parent
(the index `generateCssLocator` computes, and the index CSS
`:nth-of-type` tests).  A parentless element counts as first of its
type. -/
def nthOfTypeIdx (d : Doc) (i : Nat) : Nat :=
  match d.parent i with
  | some p =>
    (((childrenOf d p).filter (fun j => (d.el j).tagName = (d.el i).tagName)).indexOf i) + 1
  | none => 1

/-- The selector grammar `generateCssLocator` emits: an id selector,
an attribute-equality selector, or the structural fallback
tag + classes + optional `[role=..]` / `[type=..]` fragments +
optional `:nth-of-type(n)`. -/
inductive Sel where
  | byId (v : String)
  | byAttr (k v : String)
  | structural (tag : String) (classes : List String)
      (role ty : Option String) (nth : Option Nat)
deriving Repr, DecidableEq

/-- Render a selector to the string the source code builds. -/
def Sel.toStr : Sel → String
  | .byId v => "#" ++ v
  | .byAttr k v => "[" ++ k ++ "=\"" ++ v ++ "\"]"
  | .structural tag classes role ty nth =>
    tag
    ++ (if classes ≠ [] then "." ++ joinSep "." classes else "")
    ++ (match role with
        | some r => "[role=\"" ++ r ++ "\"]"
        | none => "")
    ++ (match ty with
        | some t => "[type=\"" ++ t ++ "\"]"
        | none => "")
    ++ (match nth with
        | some k => ":nth-of-type(" ++ toString k ++ ")"
        | none => "")

/-- A string that interpolates into a selector as a CSS identifier
without changing the selector's shape or throwing: non-empty,
alphanumeric/dash/underscore, starting with a letter or underscore. -/
def identWf (s : String) : Bool :=
  s ≠ ""
  && s.data.all (fun c => c.isAlphanum || c = '-' || c = '_')
  && (match s.data with
      | c :: _ => c.isAlpha || c = '_'
      | [] => false)

/-- A string that interpolates into a double-quoted CSS attribute value
without escaping issues (no quote, no backslash). -/
def attrValWf (s : String) : Bool :=
  !(strHasChar s '"') && !(strHasChar s '\\')

/-- The rendered selector string parses back as the intended selector;
otherwise the CSS engine throws a syntax error (or matches something
else), modelled as the throwing branch of the call site. -/
def selWf : Sel → Bool
  | .byId v => identWf v
  | .byAttr _ v => attrValWf v
  | .structural tag classes role ty _ =>
    identWf tag && classes.all identWf
    && (match role with | some r => attrValWf r | none => true)
    && (match ty with | some t => attrValWf t | none => true)

/-- CSS matching of the emitted grammar against element `i`. -/
def matchesSel (d : Doc) (i : Nat) : Sel → Bool
  | .byId v => (d.el i).id = v
  | .byAttr k v => getAttr (d.el i) k = some v
  | .structural tag classes role ty nth =>
    jsToLower (d.el i).tagName = tag
    && classes.all (fun c => (d.el i).classList.contains c)
    && (match role with
        | some r => getAttr (d.el i) "role" = some r
        | none => true)
    && (match ty with
        | some t => getAttr (d.el i) "type" = some t
        | none => true)
    && (match nth with
        | some k => nthOfTypeIdx d i = k
        | none => true)

/-- `document.querySelectorAll(sel).length`. -/
def selCount (d : Doc) (s : Sel) : Nat :=
  ((List.range d.n).filter (fun i => matchesSel d i s)).length

/-- The transient visibility record (`BoundingInfo`). -/
structure BoundingInfo where
  isVisible : Bool
  width : Int
  height : Int
deriving Repr, DecidableEq

/-- The in-page computed-style check of `getElementVisibilityAndBoundingBox`:
`display !== 'none' && visibility !== 'hidden' && parseFloat(opacity) > 0 &&
offsetWidth > 0 && offsetHeight > 0`. -/
def visStyleCheck (e : Elem) : Bool :=
  e.display ≠ "none"
  && e.visibility ≠ "hidden"
  && (match e.opacity with
      | some q => 0 < q
      | none => false)
  && 0 < e.offsetWidth
  && 0 < e.offsetHeight

/-- `getElementVisibilityAndBoundingBox`: any throw (detached handle,
rejected evaluation) or a missing bounding box yields
`{isVisible := false, width := 0, height := 0}`; otherwise the
computed-style check decides visibility and the box supplies the
dimensions. -/
def getElementVisibilityAndBoundingBox (d : Doc) (i : Nat) : BoundingInfo :=
  let e := d.el i
  if e.evalThrows then ⟨false, 0, 0⟩
  else
    match e.boundingBox with
    | none => ⟨false, 0, 0⟩
    | some (w, h) => ⟨visStyleCheck e, w, h⟩

/-- The structural fallback of `generateCssLocator`: lowercased tag,
single-token classes, `role`/`type` fragments, then (inside its own
`try`) an `:nth-of-type` index when the base selector matches more than
one element and the element has a parent. -/
def structuralSel (d : Doc) (i : Nat) : Sel :=
  let e := d.el i
  let classes :=
    if e.className ≠ "" then
      e.classList.filter (fun c => c ≠ "" && !(strHasChar c ' '))
    else []
  let base : Sel := .structural (jsToLower e.tagName) classes
    (attrTruthy e "role") (attrTruthy e "type") none
  if selWf base then
    if 1 < selCount d base then
      match d.parent i with
      | some _ =>
        let idx := nthOfTypeIdx d i
        if 0 < idx then
          match base with
          | .structural tag cls role ty _ => .structural tag cls role ty (some idx)
          | s => s
        else base
      | none => base
    else base
  else
    -- querySelectorAll(selector) threw: the inner catch keeps the
    -- selector without the positional suffix
    base

/-- The in-page callback of `generateCssLocator`; `none` models the
callback itself throwing (an invalid `#id` probe makes
`document.querySelectorAll` throw, rejecting the whole evaluation). -/
def generateCssLocatorCb (d : Doc) (i : Nat) : Option Sel :=
  let e := d.el i
  if e.id ≠ "" && !(identWf e.id) then none
  else if e.id ≠ "" && selCount d (.byId e.id) = 1 then some (.byId e.id)
  else
    match attrTruthy e "data-testid" with
    | some v => some (.byAttr "data-testid" v)
    | none =>
      match attrTruthy e "data-test-id" with
      | some v => some (.byAttr "data-test-id" v)
      | none =>
        match attrTruthy e "name" with
        | some v => some (.byAttr "name" v)
        | none => some (structuralSel d i)

/-- `generateCssLocator`: `null` when the evaluation fails (rejected
handle or the callback throwing), the callback's selector otherwise. -/
def generateCssLocator (d : Doc) (i : Nat) : Option Sel :=
  if (d.el i).evalThrows then none else generateCssLocatorCb d i

/-- `document.querySelector('label[for="<id>"]')`: first label element,
in document order, whose `for` attribute equals the id. -/
def findLabelFor (d : Doc) (idv : String) : Option Nat :=
  (List.range d.n).find? (fun j =>
    jsToLower (d.el j).tagName = "label" && getAttr (d.el j) "for" = some idv)

/-- The in-page callback of `getElementName`: the fixed priority chain,
every candidate trimmed and truncated to `maxLength`. -/
def getElementNameCb (d : Doc) (i : Nat) (maxLength : Nat) : String :=
  let e := d.el i
  -- Priority 1: text of an associated <label for=id>
  let labelText : Option String :=
    if e.id ≠ "" then
      match findLabelFor d e.id with
      | some j => if (d.el j).innerText ≠ "" then some (d.el j).innerText else none
      | none => none
    else none
  match labelText with
  | some t => truncate maxLength (jsTrim t)
  | none =>
    -- element directly inside a <label>
    let parentLabelText : Option String :=
      match d.parent i with
      | some p =>
        if jsToLower (d.el p).tagName = "label" && (d.el p).innerText ≠ "" then
          some (d.el p).innerText
        else none
      | none => none
    match parentLabelText with
    | some t => truncate maxLength (jsTrim t)
    | none =>
      match attrTruthy e "title" with
      | some t => truncate maxLength (jsTrim t)
      | none =>
        match attrTruthy e "aria-label" with
        | some t => truncate maxLength (jsTrim t)
        | none =>
          match attrTruthy e "placeholder" with
          | some t => truncate maxLength (jsTrim t)
          | none =>
            match attrTruthy e "alt" with
            | some t => truncate maxLength (jsTrim t)
            | none =>
              if e.innerText ≠ "" && jsTrim e.innerText ≠ "" then
                truncate maxLength (jsTrim e.innerText)
              else
                let nm := jsToLower e.tagName
                let nm :=
                  if e.id ≠ "" then nm ++ " (ID: " ++ e.id ++ ")"
                  else if e.className ≠ "" then
                    nm ++ " (Class: " ++ firstSpaceToken e.className ++ ")"
                  else nm
                truncate maxLength nm

/-- The stored descriptor. -/
structure ExtractedLocator where
  locator : String
  name : String
  count : Nat
deriving Repr, DecidableEq

/-- `Map<string, ExtractedLocator>` (`allFoundElements`), as an
association list in insertion order. -/
def Inventory := List (String × ExtractedLocator)
deriving Repr, DecidableEq

instance : Membership (String × ExtractedLocator) Inventory :=
  inferInstanceAs (Membership _ (List _))

/-- `Map.get`-style lookup. -/
def Inventory.lookup : Inventory → String → Option ExtractedLocator
  | [], _ => none
  | (k, v) :: t, k' => if k = k' then some v else Inventory.lookup t k'

/-- `Map.has`. -/
def Inventory.has (inv : Inventory) (k : String) : Bool :=
  (inv.lookup k).isSome

/-- `Map.delete`. -/
def Inventory.del (inv : Inventory) (k : String) : Inventory :=
  (inv : List _).filter (fun p => p.1 ≠ k)

/-- `Map.set`: update in place when the key exists, append otherwise. -/
def Inventory.set : Inventory → String → ExtractedLocator → Inventory
  | [], k, v => [(k, v)]
  | (k', v') :: t, k, v =>
    if k' = k then (k, v) :: t else (k', v') :: Inventory.set t k v

/-- The extraction options, with their defaults. -/
structure Config where
  minElementSize : Int := 5
  nameMaxLength : Nat := 50
deriving Repr

/-- `context.locator(s).count()` for an emitted selector: the live match
count when the rendered string parses back as the selector, the thrown
`count()` error (`none`) otherwise. -/
def validateCount (d : Doc) (s : Sel) : Option Nat :=
  if selWf s then some (selCount d s) else none

/-- The spec's "qualifying": visible and at least `minElementSize` in
both dimensions. -/
def qualifying (d : Doc) (cfg : Config) (i : Nat) : Bool :=
  let vb := getElementVisibilityAndBoundingBox d i
  vb.isVisible && cfg.minElementSize ≤ vb.width && cfg.minElementSize ≤ vb.height

/-- The conflict-resolution block of the candidate loop (the source's
`try` around the parent handle): if the candidate's parent has a
generable locator that is recorded in the inventory and the parent is
itself visible and at qualifying size, the parent's entry is removed. -/
def conflictResolve (d : Doc) (cfg : Config) (inv : Inventory) (i : Nat) :
    Inventory :=
  match d.parent i with
  | some p =>
    match generateCssLocator d p with
    | some psel =>
      if inv.has psel.toStr then
        let pvb := getElementVisibilityAndBoundingBox d p
        if pvb.isVisible && cfg.minElementSize ≤ pvb.width
            && cfg.minElementSize ≤ pvb.height then
          inv.del psel.toStr
        else inv
      else inv
    | none => inv
  | none => inv

/-- The validation-and-commit block of the candidate loop (the source's
second `try`): count live matches of the locator, and write the entry
when the count is positive; a thrown count (invalid selector) or a zero
count commits nothing. -/
def commitValidated (d : Doc) (cfg : Config) (inv1 : Inventory) (i : Nat)
    (sel : Sel) : Inventory :=
  match validateCount d sel with
  | some count =>
    if 0 < count then
      inv1.set sel.toStr
        ⟨sel.toStr, getElementNameCb d i cfg.nameMaxLength, count⟩
    else inv1
  | none => inv1

/-- The body of the candidate loop of `traverseAndExtract` for one
candidate: visibility gate, locator generation, parent conflict
resolution (its own `try`), then validation + commit (its own `try`).
Every fallible step's failure is absorbed exactly where the source
catches it, so the step is a total function on the inventory. -/
def processCandidate (d : Doc) (cfg : Config) (inv : Inventory) (i : Nat) :
    Inventory :=
  let vb := getElementVisibilityAndBoundingBox d i
  if !vb.isVisible || vb.width < cfg.minElementSize
      || vb.height < cfg.minElementSize then
    inv
  else
    match generateCssLocator d i with
    | none => inv
    | some sel => commitValidated d cfg (conflictResolve d cfg inv i) i sel

/-- Is element `i` the `body` or inside it (`'body, body *'`)?  Bounded
by the element count, so cyclic parent links simply fail the test. -/
def inBodyAux (d : Doc) : Nat → Nat → Bool
  | 0, _ => false
  | fuel + 1, i =>
    if jsToLower (d.el i).tagName = "body" then true
    else
      match d.parent i with
      | some p => inBodyAux d fuel p
      | none => false

/-- Membership in the candidate selector
`'body, body *, [data-testid], [data-test-id], [name]'`. -/
def isCandidate (d : Doc) (i : Nat) : Bool :=
  inBodyAux d (d.n + 1) i
  || hasAttr (d.el i) "data-testid"
  || hasAttr (d.el i) "data-test-id"
  || hasAttr (d.el i) "name"

/-- `context.$$(...)`: the candidate handles, in document order. -/
def candidates (d : Doc) : List Nat :=
  (List.range d.n).filter (isCandidate d)

/-- The candidate loop over a given handle list. -/
def traverse (d : Doc) (cfg : Config) (inv : Inventory) (cands : List Nat) :
    Inventory :=
  cands.foldl (processCandidate d cfg) inv

/-- One full pass of `traverseAndExtract` over a document. -/
def pass (d : Doc) (cfg : Config) (inv : Inventory) : Inventory :=
  traverse d cfg inv (candidates d)

/-- State of the observation loop: the stored interval handle
(`pollingIntervalId`), the stop flag (`stopPolling`), the set of timers
the runtime currently keeps alive (`active`), and a fresh-id counter
for `setInterval`. -/
structure ObsState where
  pollingIntervalId : Option Nat
  stopPolling : Bool
  active : List Nat
  nextId : Nat
deriving Repr, DecidableEq

/-- Events against the loop: `startDynamicElementObservation`, a timer
pulse of interval `t`, and `stopObservation`. -/
inductive ObsEvent where
  | start
  | pulse (t : Nat)
  | stop
deriving Repr, DecidableEq

/-- One event step; the boolean reports whether a traversal pass was
initiated by this event. -/
def stepObs (s : ObsState) : ObsEvent → ObsState × Bool
  | .start =>
    -- if (pollingIntervalId) clearInterval(pollingIntervalId);
    -- pollingIntervalId = setInterval(...)
    let cleared :=
      match s.pollingIntervalId with
      | some t => s.active.erase t
      | none => s.active
    (⟨some s.nextId, s.stopPolling, s.nextId :: cleared, s.nextId + 1⟩, false)
  | .pulse t =>
    if s.active.contains t then
      if s.stopPolling then
        -- clearInterval(pollingIntervalId); pollingIntervalId = null; return
        let cleared :=
          match s.pollingIntervalId with
          | some u => s.active.erase u
          | none => s.active
        (⟨none, s.stopPolling, cleared, s.nextId⟩, false)
      else
        -- await traverseAndExtract(page)
        (s, true)
    else (s, false)
  | .stop =>
    -- stopPolling = true; if (pollingIntervalId) { clearInterval; null }
    match s.pollingIntervalId with
    | some t => (⟨none, true, s.active.erase t, s.nextId⟩, false)
    | none => (⟨none, true, s.active, s.nextId⟩, false)

/-- Run a sequence of events, collecting the pass-initiation flags. -/
def runObs (s : ObsState) : List ObsEvent → ObsState × List Bool
  | [] => (s, [])
  | e :: es =>
    let (s', b) := stepObs s e
    let (s'', bs) := runObs s' es
    (s'', b :: bs)

/-- The timer-set invariant: at most the currently stored interval id is
alive. -/
def ObsInv (s : ObsState) : Prop :=
  match s.active with
  | [] => True
  | [t] => s.pollingIntervalId = some t
  | _ => False

/-! ### Basic inventory lemmas -/

theorem Inventory.lookup_del (inv : Inventory) (k k' : String) :
    (inv.del k).lookup k' = if k' = k then none else inv.lookup k' := by
  induction inv with
  | nil => simp [Inventory.del, Inventory.lookup, List.filter]
  | cons hd tl ih =>
    obtain ⟨a, w⟩ := hd
    by_cases hak : a = k
    · have h1 : Inventory.del ((a, w) :: tl) k = Inventory.del tl k := by
        simp [Inventory.del, List.filter_cons, hak]
      rw [h1, ih]
      by_cases hk' : k' = k
      · simp [hk']
      · have hx : ¬ a = k' := fun h => hk' (h.symm.trans hak)
        simp [Inventory.lookup, hk', hx]
    · have h1 : Inventory.del ((a, w) :: tl) k = (a, w) :: Inventory.del tl k := by
        simp [Inventory.del, List.filter_cons, hak]
      rw [h1]
      simp only [Inventory.lookup]
      by_cases hk' : a = k'
      · subst hk'
        simp [Inventory.lookup, hak]
      · rw [if_neg hk', ih]
        by_cases hk : k' = k
        · simp [hk]
        · simp [Inventory.lookup, hk, hk']

theorem Inventory.lookup_set (inv : Inventory) (k k' : String)
    (v : ExtractedLocator) :
    (inv.set k v).lookup k' = if k' = k then some v else inv.lookup k' := by
  induction inv with
  | nil =>
    simp only [Inventory.set, Inventory.lookup]
    by_cases hk : k' = k
    · simp [hk]
    · simp [hk, Ne.symm hk]
  | cons hd tl ih =>
    obtain ⟨a, w⟩ := hd
    simp only [Inventory.set]
    by_cases hak : a = k
    · subst hak
      simp only [if_pos rfl, Inventory.lookup]
      by_cases hk : k' = a
      · simp [hk]
      · simp [hk, Ne.symm hk]
    · rw [if_neg hak]
      simp only [Inventory.lookup]
      by_cases hk' : a = k'
      · subst hk'
        simp [hak]
      · rw [if_neg hk', ih]
        by_cases hk : k' = k
        · simp [hk]
        · simp [hk, hk']

theorem Inventory.has_del_self (inv : Inventory) (k : String) :
    (inv.del k).has k = false := by
  simp [Inventory.has, Inventory.lookup_del]

theorem Inventory.del_of_not_has (inv : Inventory) (k : String)
    (h : inv.has k = false) : inv.del k = inv := by
  induction inv with
  | nil => rfl
  | cons hd tl ih =>
    obtain ⟨a, w⟩ := hd
    simp only [Inventory.has, Inventory.lookup] at h
    by_cases hak : a = k
    · rw [if_pos hak] at h; simp at h
    · rw [if_neg hak] at h
      have htl : Inventory.del tl k = tl := ih (by simpa [Inventory.has] using h)
      have h1 : Inventory.del ((a, w) :: tl) k = (a, w) :: Inventory.del tl k := by
        simp [Inventory.del, List.filter_cons, hak]
      rw [h1, htl]

theorem Inventory.has_set (inv : Inventory) (k k' : String)
    (v : ExtractedLocator) (h : k' ≠ k) :
    (inv.set k v).has k' = inv.has k' := by
  simp [Inventory.has, Inventory.lookup_set, h]

theorem Inventory.has_del_false (inv : Inventory) (k k' : String)
    (h : inv.has k' = false) : (inv.del k).has k' = false := by
  by_cases hk : k' = k
  · rw [hk]; exact Inventory.has_del_self inv k
  · simpa [Inventory.has, Inventory.lookup_del, hk] using h

theorem Inventory.mem_del (inv : Inventory) (k : String)
    (p : String × ExtractedLocator) (h : p ∈ inv.del k) : p ∈ inv :=
  (List.mem_filter.mp h).1

theorem Inventory.mem_set (inv : Inventory) (k : String)
    (v : ExtractedLocator) (p : String × ExtractedLocator)
    (h : p ∈ inv.set k v) : p = (k, v) ∨ p ∈ inv := by
  induction inv with
  | nil =>
    simp only [Inventory.set] at h
    rcases List.mem_cons.mp h with h | h
    · exact Or.inl h
    · cases h
  | cons hd tl ih =>
    obtain ⟨a, w⟩ := hd
    simp only [Inventory.set] at h
    by_cases hak : a = k
    · rw [if_pos hak] at h
      rcases List.mem_cons.mp h with h | h
      · exact Or.inl h
      · exact Or.inr (List.mem_cons_of_mem _ h)
    · rw [if_neg hak] at h
      rcases List.mem_cons.mp h with h | h
      · exact Or.inr (h ▸ List.mem_cons_self _ _)
      · rcases ih h with h' | h'
        · exact Or.inl h'
        · exact Or.inr (List.mem_cons_of_mem _ h')

/-! ### State-independent effect of one candidate

On a static document the inventory operations a candidate performs do
not depend on the inventory contents: the `has` test before the parent
deletion only avoids deleting an absent key, which is a no-op anyway.
This section characterises `processCandidate` by a list of operations
computed from the document alone; idempotence of a pass follows. -/

/-- A single inventory mutation. -/
inductive InvOp where
  | del (k : String)
  | set (k : String) (v : ExtractedLocator)
deriving Repr, DecidableEq

/-- Apply one mutation. -/
def applyOp (inv : Inventory) : InvOp → Inventory
  | .del k => inv.del k
  | .set k v => inv.set k v

/-- Apply a mutation list, left to right. -/
def applyOps (inv : Inventory) (L : List InvOp) : Inventory :=
  L.foldl applyOp inv

/-- The (at most one) deletion the conflict-resolution block performs,
computed from the document alone. -/
def parentOps (d : Doc) (cfg : Config) (i : Nat) : List InvOp :=
  match d.parent i with
  | some p =>
    match generateCssLocator d p with
    | some psel =>
      let pvb := getElementVisibilityAndBoundingBox d p
      if pvb.isVisible && cfg.minElementSize ≤ pvb.width
          && cfg.minElementSize ≤ pvb.height then
        [.del psel.toStr]
      else []
    | none => []
  | none => []

/-- The (at most one) write the validation block performs. -/
def commitOps (d : Doc) (cfg : Config) (i : Nat) (sel : Sel) : List InvOp :=
  match validateCount d sel with
  | some count =>
    if 0 < count then
      [.set sel.toStr ⟨sel.toStr, getElementNameCb d i cfg.nameMaxLength, count⟩]
    else []
  | none => []

/-- All operations of one candidate. -/
def candOps (d : Doc) (cfg : Config) (i : Nat) : List InvOp :=
  let vb := getElementVisibilityAndBoundingBox d i
  if !vb.isVisible || vb.width < cfg.minElementSize
      || vb.height < cfg.minElementSize then
    []
  else
    match generateCssLocator d i with
    | none => []
    | some sel => parentOps d cfg i ++ commitOps d cfg i sel

theorem applyOps_nil (inv : Inventory) : applyOps inv [] = inv := rfl

theorem applyOps_one (inv : Inventory) (op : InvOp) :
    applyOps inv [op] = applyOp inv op := rfl

theorem conflictResolve_eq_applyOps (d : Doc) (cfg : Config)
    (inv : Inventory) (i : Nat) :
    conflictResolve d cfg inv i = applyOps inv (parentOps d cfg i) := by
  unfold conflictResolve parentOps
  cases hp : d.parent i with
  | none => rfl
  | some p =>
    dsimp only
    cases hg : generateCssLocator d p with
    | none => rfl
    | some psel =>
      dsimp only
      by_cases hq : ((getElementVisibilityAndBoundingBox d p).isVisible
          && decide (cfg.minElementSize ≤ (getElementVisibilityAndBoundingBox d p).width)
          && decide (cfg.minElementSize ≤ (getElementVisibilityAndBoundingBox d p).height)) = true
      · by_cases hh : inv.has psel.toStr = true
        · rw [if_pos hh, if_pos hq, if_pos hq, applyOps_one]
          rfl
        · have hh' : inv.has psel.toStr = false := by simpa using hh
          rw [if_neg hh, if_pos hq, applyOps_one]
          show inv = inv.del psel.toStr
          rw [Inventory.del_of_not_has inv _ hh']
      · by_cases hh : inv.has psel.toStr = true
        · rw [if_pos hh, if_neg hq, if_neg hq, applyOps_nil]
        · rw [if_neg hh, if_neg hq, applyOps_nil]

theorem commitValidated_eq_applyOps (d : Doc) (cfg : Config)
    (inv1 : Inventory) (i : Nat) (sel : Sel) :
    commitValidated d cfg inv1 i sel = applyOps inv1 (commitOps d cfg i sel) := by
  unfold commitValidated commitOps
  cases validateCount d sel with
  | none => rfl
  | some count =>
    dsimp only
    by_cases hc : 0 < count
    · rw [if_pos hc, if_pos hc]; rfl
    · rw [if_neg hc, if_neg hc]; rfl

theorem applyOps_append (inv : Inventory) (L1 L2 : List InvOp) :
    applyOps inv (L1 ++ L2) = applyOps (applyOps inv L1) L2 :=
  List.foldl_append _ _ _ _

theorem processCandidate_eq_applyOps (d : Doc) (cfg : Config)
    (inv : Inventory) (i : Nat) :
    processCandidate d cfg inv i = applyOps inv (candOps d cfg i) := by
  unfold processCandidate candOps
  simp only
  split
  · rfl
  · cases generateCssLocator d i with
    | none => rfl
    | some sel =>
      show commitValidated d cfg (conflictResolve d cfg inv i) i sel = _
      rw [applyOps_append, conflictResolve_eq_applyOps,
        commitValidated_eq_applyOps]

/-- All operations of one pass, in candidate order. -/
def passOps (d : Doc) (cfg : Config) : List InvOp :=
  (candidates d).flatMap (candOps d cfg)

theorem traverse_eq_applyOps (d : Doc) (cfg : Config) (inv : Inventory)
    (cands : List Nat) :
    traverse d cfg inv cands = applyOps inv (cands.flatMap (candOps d cfg)) := by
  induction cands generalizing inv with
  | nil => rfl
  | cons c cs ih =>
    show traverse d cfg (processCandidate d cfg inv c) cs = _
    rw [ih, List.flatMap_cons, applyOps_append, processCandidate_eq_applyOps]

theorem pass_eq_applyOps (d : Doc) (cfg : Config) (inv : Inventory) :
    pass d cfg inv = applyOps inv (passOps d cfg) :=
  traverse_eq_applyOps d cfg inv (candidates d)

/-- The last operation in a list that touches a key. -/
def lastOpOn (k : String) : List InvOp → Option InvOp
  | [] => none
  | op :: L =>
    match lastOpOn k L with
    | some o => some o
    | none =>
      match op with
      | .del k' => if k' = k then some op else none
      | .set k' _ => if k' = k then some op else none

theorem lookup_applyOps (inv : Inventory) (L : List InvOp) (k : String) :
    (applyOps inv L).lookup k =
      match lastOpOn k L with
      | some (.set _ v) => some v
      | some (.del _) => none
      | none => inv.lookup k := by
  induction L generalizing inv with
  | nil => rfl
  | cons op L ih =>
    show (applyOps (applyOp inv op) L).lookup k = _
    rw [ih]
    cases hlast : lastOpOn k L with
    | some o => cases o <;> simp [lastOpOn, hlast]
    | none =>
      simp only [lastOpOn, hlast]
      cases op with
      | del k' =>
        by_cases hk : k' = k
        · simp [hk, applyOp, Inventory.lookup_del]
        · simp [hk, Ne.symm hk, applyOp, Inventory.lookup_del]
      | set k' v =>
        by_cases hk : k' = k
        · simp [hk, applyOp, Inventory.lookup_set]
        · simp [hk, Ne.symm hk, applyOp, Inventory.lookup_set]

theorem applyOps_idem (inv : Inventory) (L : List InvOp) (k : String) :
    (applyOps (applyOps inv L) L).lookup k = (applyOps inv L).lookup k := by
  rw [lookup_applyOps, lookup_applyOps]
  cases hlast : lastOpOn k L with
  | none => simp only [lookup_applyOps, hlast]
  | some o => cases o <;> rfl

/-! ### Shape lemmas for one candidate step -/

theorem gate_eq (d : Doc) (cfg : Config) (i : Nat) :
    (!(getElementVisibilityAndBoundingBox d i).isVisible
      || decide ((getElementVisibilityAndBoundingBox d i).width < cfg.minElementSize)
      || decide ((getElementVisibilityAndBoundingBox d i).height < cfg.minElementSize))
      = !qualifying d cfg i := by
  unfold qualifying
  cases hv : (getElementVisibilityAndBoundingBox d i).isVisible <;>
  · by_cases h1 : cfg.minElementSize ≤ (getElementVisibilityAndBoundingBox d i).width <;>
    by_cases h2 : cfg.minElementSize ≤ (getElementVisibilityAndBoundingBox d i).height <;>
      simp [hv, h1, h2, not_le] <;> omega

theorem processCandidate_not_qualifying (d : Doc) (cfg : Config)
    (inv : Inventory) (i : Nat) (h : qualifying d cfg i = false) :
    processCandidate d cfg inv i = inv := by
  have hg : (!(getElementVisibilityAndBoundingBox d i).isVisible
      || decide ((getElementVisibilityAndBoundingBox d i).width < cfg.minElementSize)
      || decide ((getElementVisibilityAndBoundingBox d i).height < cfg.minElementSize))
      = true := by rw [gate_eq d cfg i, h]; rfl
  unfold processCandidate
  dsimp only
  rw [if_pos hg]

theorem processCandidate_qualifying (d : Doc) (cfg : Config)
    (inv : Inventory) (i : Nat) (h : qualifying d cfg i = true) :
    processCandidate d cfg inv i =
      match generateCssLocator d i with
      | none => inv
      | some sel => commitValidated d cfg (conflictResolve d cfg inv i) i sel := by
  have hg : (!(getElementVisibilityAndBoundingBox d i).isVisible
      || decide ((getElementVisibilityAndBoundingBox d i).width < cfg.minElementSize)
      || decide ((getElementVisibilityAndBoundingBox d i).height < cfg.minElementSize))
      = false := by rw [gate_eq d cfg i, h]; rfl
  unfold processCandidate
  dsimp only
  rw [if_neg (by simp [hg])]

theorem processCandidate_cases (d : Doc) (cfg : Config) (inv : Inventory)
    (i : Nat) :
    processCandidate d cfg inv i = inv ∨
    ∃ sel, generateCssLocator d i = some sel ∧
      processCandidate d cfg inv i =
        commitValidated d cfg (conflictResolve d cfg inv i) i sel := by
  cases hq : qualifying d cfg i with
  | false => exact Or.inl (processCandidate_not_qualifying d cfg inv i hq)
  | true =>
    rw [processCandidate_qualifying d cfg inv i hq]
    cases hg : generateCssLocator d i with
    | none => exact Or.inl rfl
    | some sel => exact Or.inr ⟨sel, rfl, rfl⟩

theorem mem_conflictResolve (d : Doc) (cfg : Config) (inv : Inventory)
    (i : Nat) (p : String × ExtractedLocator)
    (h : p ∈ conflictResolve d cfg inv i) : p ∈ inv := by
  rw [conflictResolve_eq_applyOps] at h
  unfold parentOps at h
  rcases hp : d.parent i with _ | q
  · rwa [hp] at h
  · rw [hp] at h
    dsimp only at h
    rcases hg : generateCssLocator d q with _ | psel
    · rwa [hg] at h
    · rw [hg] at h
      dsimp only at h
      split at h
      · exact Inventory.mem_del inv _ p h
      · exact h

theorem lookup_conflictResolve (d : Doc) (cfg : Config) (inv : Inventory)
    (i : Nat) (k : String) :
    (conflictResolve d cfg inv i).lookup k = inv.lookup k ∨
      (conflictResolve d cfg inv i).lookup k = none := by
  rw [conflictResolve_eq_applyOps]
  unfold parentOps
  rcases hp : d.parent i with _ | q
  · exact Or.inl rfl
  · dsimp only
    rcases hg : generateCssLocator d q with _ | psel
    · exact Or.inl rfl
    · dsimp only
      split
      · rw [applyOps_one]
        have hd : (applyOp inv (InvOp.del psel.toStr)).lookup k
            = (inv.del psel.toStr).lookup k := rfl
        rw [hd, Inventory.lookup_del]
        by_cases hk : k = psel.toStr
        · rw [if_pos hk]; exact Or.inr rfl
        · rw [if_neg hk]; exact Or.inl rfl
      · exact Or.inl rfl

theorem mem_commitValidated_count (d : Doc) (cfg : Config) (inv1 : Inventory)
    (i : Nat) (sel : Sel) (h1 : ∀ p ∈ inv1, 1 ≤ p.2.count) :
    ∀ p ∈ commitValidated d cfg inv1 i sel, 1 ≤ p.2.count := by
  unfold commitValidated
  cases hv : validateCount d sel with
  | none => exact h1
  | some count =>
    dsimp only
    by_cases hc : 0 < count
    · rw [if_pos hc]
      intro p hp
      rcases Inventory.mem_set _ _ _ _ hp with rfl | hp'
      · exact hc
      · exact h1 p hp'
    · rw [if_neg hc]
      exact h1

theorem processCandidate_count (d : Doc) (cfg : Config) (inv : Inventory)
    (i : Nat) (h : ∀ p ∈ inv, 1 ≤ p.2.count) :
    ∀ p ∈ processCandidate d cfg inv i, 1 ≤ p.2.count := by
  rcases processCandidate_cases d cfg inv i with he | ⟨sel, hg, he⟩
  · rw [he]; exact h
  · rw [he]
    exact mem_commitValidated_count d cfg _ i sel
      (fun p hp => h p (mem_conflictResolve d cfg inv i p hp))

theorem traverse_count (d : Doc) (cfg : Config) (inv : Inventory)
    (cands : List Nat) (h : ∀ p ∈ inv, 1 ≤ p.2.count) :
    ∀ p ∈ traverse d cfg inv cands, 1 ≤ p.2.count := by
  induction cands generalizing inv with
  | nil => exact h
  | cons c cs ih =>
    exact ih (processCandidate d cfg inv c) (processCandidate_count d cfg inv c h)

/-- Claim C5: running two consecutive passes over a static (unchanged)
document, starting from any inventory state produced by the first pass,
leaves the inventory content (the key-to-descriptor mapping) identical
after the second pass to its content after the first. -/
theorem C5_pass_idempotent (d : Doc) (cfg : Config) (inv : Inventory)
    (k : String) :
    (pass d cfg (pass d cfg inv)).lookup k = (pass d cfg inv).lookup k := by
  simp only [pass_eq_applyOps]
  exact applyOps_idem inv (passOps d cfg) k

/-- Claim C3: a generated locator whose validation-time live match count
is zero never creates an inventory entry (the candidate's step only
ever leaves keys unchanged or removes them), and consequently every
entry of the inventory after a pass — starting from any inventory all
of whose entries were written with a positive count — has `count ≥ 1`. -/
theorem C3_validation_elimination (d : Doc) (cfg : Config) (inv : Inventory)
    (hinv : ∀ p ∈ inv, 1 ≤ p.2.count) :
    (∀ inv1 i sel, validateCount d sel = some 0 →
      commitValidated d cfg inv1 i sel = inv1) ∧
    (∀ i sel, generateCssLocator d i = some sel →
      validateCount d sel = some 0 ∨ validateCount d sel = none →
      ∀ k, (processCandidate d cfg inv i).lookup k = inv.lookup k ∨
        (processCandidate d cfg inv i).lookup k = none) ∧
    (∀ p ∈ pass d cfg inv, 1 ≤ p.2.count) := by
  refine ⟨?_, ?_, traverse_count d cfg inv (candidates d) hinv⟩
  · intro inv1 i sel hv
    unfold commitValidated
    rw [hv]
    dsimp only
    rw [if_neg (by simp)]
  · intro i sel hg hv k
    rcases processCandidate_cases d cfg inv i with he | ⟨sel', hg', he⟩
    · rw [he]; exact Or.inl rfl
    · rw [hg] at hg'
      cases hg'
      rw [he]
      unfold commitValidated
      rcases hv with hv | hv
      · rw [hv]
        dsimp only
        rw [if_neg (by simp)]
        exact lookup_conflictResolve d cfg inv i k
      · rw [hv]
        exact lookup_conflictResolve d cfg inv i k

theorem traverse_cons (d : Doc) (cfg : Config) (inv : Inventory) (c : Nat)
    (cs : List Nat) :
    traverse d cfg inv (c :: cs) = traverse d cfg (processCandidate d cfg inv c) cs :=
  rfl

theorem vb_default (d : Doc) (i : Nat)
    (h : (d.el i).evalThrows = true ∨ (d.el i).boundingBox = none) :
    getElementVisibilityAndBoundingBox d i = ⟨false, 0, 0⟩ := by
  unfold getElementVisibilityAndBoundingBox
  rcases h with h | h
  · simp [h]
  · by_cases ht : (d.el i).evalThrows <;> simp [h, ht]

/-- `parseFloat(style.opacity) > 0` fails: the parsed opacity is
non-positive, or parsing produced NaN. -/
def opacityFailsCheck (e : Elem) : Prop :=
  match e.opacity with
  | some q => q ≤ 0
  | none => True

theorem visStyleCheck_false (e : Elem)
    (h : e.offsetWidth = 0 ∨ e.offsetHeight = 0 ∨ opacityFailsCheck e ∨
      e.display = "none" ∨ e.visibility = "hidden") :
    visStyleCheck e = false := by
  rcases h with h | h | h | h | h
  · simp [visStyleCheck, h]
  · simp [visStyleCheck, h]
  · cases ho : e.opacity with
    | none => simp [visStyleCheck, ho]
    | some q =>
      unfold opacityFailsCheck at h
      rw [ho] at h
      simp only at h
      simp [visStyleCheck, ho, not_lt.mpr h]
  · simp [visStyleCheck, h]
  · simp [visStyleCheck, h]

theorem isVisible_false_of_styles (d : Doc) (i : Nat)
    (h : visStyleCheck (d.el i) = false) :
    (getElementVisibilityAndBoundingBox d i).isVisible = false := by
  unfold getElementVisibilityAndBoundingBox
  by_cases ht : (d.el i).evalThrows
  · simp [ht]
  · simp only [ht, if_false, Bool.false_eq_true]
    cases hb : (d.el i).boundingBox with
    | none => rfl
    | some wh => obtain ⟨w, hgt⟩ := wh; simp [h]

/-- Claim C2: any failure evaluating a single candidate (detached node
or rejected in-page evaluation) is absorbed: that candidate's step
leaves the inventory unchanged and the candidate loop — a total
function — continues with exactly the remaining candidates, so no
exception escapes a traversal pass because of one bad candidate. -/
theorem C2_bad_candidate_skipped (d : Doc) (cfg : Config) (inv : Inventory)
    (i : Nat) (rest : List Nat)
    (h : (d.el i).evalThrows = true ∨ (d.el i).boundingBox = none) :
    processCandidate d cfg inv i = inv ∧
    traverse d cfg inv (i :: rest) = traverse d cfg inv rest := by
  have hq : qualifying d cfg i = false := by
    simp [qualifying, vb_default d i h]
  have hskip := processCandidate_not_qualifying d cfg inv i hq
  exact ⟨hskip, by rw [traverse_cons, hskip]⟩

/-- Claim C6: an element whose computed style hides it (zero rendered
content-box width or height, non-positive or unparseable opacity,
`display: none`, or `visibility: hidden`) is reported not visible and
not qualifying, and its candidate step creates no inventory entry; a
detached handle, missing bounding box, or throwing evaluation reports
`{isVisible: false, width: 0, height: 0}`; and a candidate is processed
beyond the gate only if it is visible and at least `minElementSize` in
both bounding-box dimensions. -/
theorem C6_visibility_gate (d : Doc) (cfg : Config) (i : Nat) :
    ((d.el i).offsetWidth = 0 ∨ (d.el i).offsetHeight = 0 ∨
        opacityFailsCheck (d.el i) ∨ (d.el i).display = "none" ∨
        (d.el i).visibility = "hidden" →
      (getElementVisibilityAndBoundingBox d i).isVisible = false ∧
      qualifying d cfg i = false ∧
      ∀ inv, processCandidate d cfg inv i = inv) ∧
    ((d.el i).evalThrows = true ∨ (d.el i).boundingBox = none →
      getElementVisibilityAndBoundingBox d i = ⟨false, 0, 0⟩) ∧
    (∀ inv, qualifying d cfg i = false → processCandidate d cfg inv i = inv) := by
  refine ⟨fun h => ?_, vb_default d i, fun inv hq => processCandidate_not_qualifying d cfg inv i hq⟩
  have hvis := isVisible_false_of_styles d i (visStyleCheck_false (d.el i) h)
  have hq : qualifying d cfg i = false := by simp [qualifying, hvis]
  exact ⟨hvis, hq, fun inv => processCandidate_not_qualifying d cfg inv i hq⟩

/-! ### Locator generator claims -/

theorem str_data_ne_nil (s : String) (h : s ≠ "") : s.data ≠ [] := by
  intro hd
  exact h (String.ext hd)

theorem append_ne_empty_left (s t : String) (h : s ≠ "") : s ++ t ≠ "" := by
  intro heq
  have h2 := congrArg String.data heq
  simp [String.data_append] at h2
  exact str_data_ne_nil s h h2.1

theorem jsToLower_ne_empty (s : String) (h : s ≠ "") : jsToLower s ≠ "" := by
  intro heq
  have h2 := congrArg String.data heq
  simp [jsToLower] at h2
  exact str_data_ne_nil s h h2

theorem structural_toStr_ne_empty (tag : String) (classes : List String)
    (role ty : Option String) (nth : Option Nat) (h : tag ≠ "") :
    (Sel.structural tag classes role ty nth).toStr ≠ "" := by
  unfold Sel.toStr
  exact append_ne_empty_left _ _ (append_ne_empty_left _ _
    (append_ne_empty_left _ _ (append_ne_empty_left _ _ h)))

theorem structuralSel_shape (d : Doc) (i : Nat) :
    ∃ classes role ty nth,
      structuralSel d i =
        .structural (jsToLower (d.el i).tagName) classes role ty nth := by
  unfold structuralSel
  dsimp only
  repeat' split
  all_goals exact ⟨_, _, _, _, rfl⟩

/-- Claim C4: for an element whose non-empty id is carried by exactly
one element of the document (and is a well-formed CSS identifier, so
the in-page probe does not throw), the generator returns exactly the
id-selector `#<id>`, and validating that locator in the same context
yields a match count of 1. -/
theorem C4_unique_id (d : Doc) (i : Nat)
    (hthrow : (d.el i).evalThrows = false)
    (hid : (d.el i).id ≠ "")
    (hwf : identWf (d.el i).id = true)
    (huniq : selCount d (.byId (d.el i).id) = 1) :
    generateCssLocator d i = some (.byId (d.el i).id) ∧
    (Sel.byId (d.el i).id).toStr = "#" ++ (d.el i).id ∧
    validateCount d (.byId (d.el i).id) = some 1 := by
  refine ⟨?_, rfl, ?_⟩
  · unfold generateCssLocator generateCssLocatorCb
    rw [hthrow]
    simp [hid, hwf, huniq]
  · unfold validateCount
    rw [if_pos (by simp [selWf, hwf]), huniq]

/-- Claim C10: whenever the locator generator's in-page evaluation
completes without throwing (the handle evaluates, and a non-empty id —
which triggers the uniqueness probe — is a well-formed identifier), it
returns a selector whose rendered string is non-empty: the structural
fallback always begins with the lowercased tag name, so `null` arises
only from a failed evaluation, never as a computed result. -/
theorem C10_nonempty_locator (d : Doc) (i : Nat)
    (hthrow : (d.el i).evalThrows = false)
    (hidwf : (d.el i).id ≠ "" → identWf (d.el i).id = true)
    (htag : (d.el i).tagName ≠ "") :
    ∃ sel, generateCssLocator d i = some sel ∧ sel.toStr ≠ "" := by
  unfold generateCssLocator generateCssLocatorCb
  rw [hthrow]
  rw [if_neg (by simp)]
  dsimp only
  have h1 : (decide ((d.el i).id ≠ "") && !(identWf (d.el i).id)) = false := by
    by_cases hid : (d.el i).id = ""
    · simp [hid]
    · simp [hid, hidwf hid]
  rw [if_neg (show ¬_ by rw [h1]; simp)]
  by_cases h2 : (decide ((d.el i).id ≠ "") && decide (selCount d (.byId (d.el i).id) = 1)) = true
  · rw [if_pos h2]
    refine ⟨_, rfl, ?_⟩
    show "#" ++ (d.el i).id ≠ ""
    exact append_ne_empty_left _ _ (by decide)
  · rw [if_neg h2]
    cases ht1 : attrTruthy (d.el i) "data-testid" with
    | some v =>
      refine ⟨_, rfl, ?_⟩
      show "[" ++ "data-testid" ++ "=\"" ++ v ++ "\"]" ≠ ""
      exact append_ne_empty_left _ _
        (append_ne_empty_left _ _ (append_ne_empty_left _ _ (by decide)))
    | none =>
      cases ht2 : attrTruthy (d.el i) "data-test-id" with
      | some v =>
        refine ⟨_, rfl, ?_⟩
        show "[" ++ "data-test-id" ++ "=\"" ++ v ++ "\"]" ≠ ""
        exact append_ne_empty_left _ _
          (append_ne_empty_left _ _ (append_ne_empty_left _ _ (by decide)))
      | none =>
        cases ht3 : attrTruthy (d.el i) "name" with
        | some v =>
          refine ⟨_, rfl, ?_⟩
          show "[" ++ "name" ++ "=\"" ++ v ++ "\"]" ≠ ""
          exact append_ne_empty_left _ _
            (append_ne_empty_left _ _ (append_ne_empty_left _ _ (by decide)))
        | none =>
          refine ⟨_, rfl, ?_⟩
          obtain ⟨classes, role, ty, nth, hshape⟩ := structuralSel_shape d i
          rw [hshape]
          exact structural_toStr_ne_empty _ _ _ _ _ (jsToLower_ne_empty _ htag)

/-! ### Name extractor claims -/

theorem truncate_length_le (n : Nat) (s : String) :
    (truncate n s).length ≤ n := by
  have h : (truncate n s).length = (s.data.take n).length := rfl
  rw [h]
  exact s.data.length_take_le n

theorem getElementNameCb_length (d : Doc) (i : Nat) (maxLength : Nat) :
    (getElementNameCb d i maxLength).length ≤ maxLength := by
  unfold getElementNameCb
  dsimp only
  repeat' split
  all_goals exact truncate_length_le _ _

theorem mem_processCandidate (d : Doc) (cfg : Config) (inv : Inventory)
    (i : Nat) (p : String × ExtractedLocator)
    (h : p ∈ processCandidate d cfg inv i) :
    p ∈ inv ∨ ∃ sel count, generateCssLocator d i = some sel ∧
      validateCount d sel = some count ∧ 0 < count ∧
      p = (sel.toStr,
        ⟨sel.toStr, getElementNameCb d i cfg.nameMaxLength, count⟩) := by
  rcases processCandidate_cases d cfg inv i with he | ⟨sel, hg, he⟩
  · rw [he] at h
    exact Or.inl h
  · rw [he] at h
    unfold commitValidated at h
    cases hv : validateCount d sel with
    | none =>
      rw [hv] at h
      exact Or.inl (mem_conflictResolve _ _ _ _ _ h)
    | some count =>
      rw [hv] at h
      dsimp only at h
      by_cases hc : 0 < count
      · rw [if_pos hc] at h
        rcases Inventory.mem_set _ _ _ _ h with rfl | h'
        · exact Or.inr ⟨sel, count, hg, hv, hc, rfl⟩
        · exact Or.inl (mem_conflictResolve _ _ _ _ _ h')
      · rw [if_neg hc] at h
        exact Or.inl (mem_conflictResolve _ _ _ _ _ h)

theorem traverse_name_length (d : Doc) (cfg : Config) (inv : Inventory)
    (cands : List Nat)
    (h : ∀ p ∈ inv, p.2.name.length ≤ cfg.nameMaxLength) :
    ∀ p ∈ traverse d cfg inv cands, p.2.name.length ≤ cfg.nameMaxLength := by
  induction cands generalizing inv with
  | nil => exact h
  | cons c cs ih =>
    refine ih _ (fun p hp => ?_)
    rcases mem_processCandidate d cfg inv c p hp with hi | ⟨sel, count, _, _, _, rfl⟩
    · exact h p hi
    · exact getElementNameCb_length d c cfg.nameMaxLength

/-- Claim C7 (amended): the name extractor's callback always returns a
string (never null) of length at most `nameMaxLength`; every priority
rule trims its candidate before truncating, but truncation at
`nameMaxLength` can leave trailing whitespace, so the result is not
always trimmed.  The name field of every inventory entry after a pass
(from an inventory whose names already satisfy the bound) has length at
most `nameMaxLength`. -/
theorem C7_name_length (d : Doc) (cfg : Config) (inv : Inventory) (i : Nat)
    (hinv : ∀ p ∈ inv, p.2.name.length ≤ cfg.nameMaxLength) :
    (getElementNameCb d i cfg.nameMaxLength).length ≤ cfg.nameMaxLength ∧
    ∀ p ∈ pass d cfg inv, p.2.name.length ≤ cfg.nameMaxLength :=
  ⟨getElementNameCb_length d i cfg.nameMaxLength,
    traverse_name_length d cfg inv (candidates d) hinv⟩

/-! ### Conflict resolution claims -/

theorem conflictResolve_deletes (d : Doc) (cfg : Config) (inv : Inventory)
    (i p : Nat) (psel : Sel)
    (hp : d.parent i = some p)
    (hpg : generateCssLocator d p = some psel)
    (hhas : inv.has psel.toStr = true)
    (hpq : qualifying d cfg p = true) :
    conflictResolve d cfg inv i = inv.del psel.toStr := by
  have hpq' : ((getElementVisibilityAndBoundingBox d p).isVisible
      && decide (cfg.minElementSize ≤ (getElementVisibilityAndBoundingBox d p).width)
      && decide (cfg.minElementSize ≤ (getElementVisibilityAndBoundingBox d p).height))
      = true := hpq
  unfold conflictResolve
  rw [hp]
  dsimp only
  rw [hpg]
  dsimp only
  rw [if_pos hhas, if_pos hpq']

theorem conflictResolve_has_false (d : Doc) (cfg : Config) (inv : Inventory)
    (i : Nat) (L : String) (h : inv.has L = false) :
    (conflictResolve d cfg inv i).has L = false := by
  rcases lookup_conflictResolve d cfg inv i L with hc | hc
  · unfold Inventory.has
    rw [hc]
    simpa [Inventory.has] using h
  · unfold Inventory.has
    rw [hc]
    rfl

theorem processCandidate_not_has (d : Doc) (cfg : Config) (inv : Inventory)
    (j : Nat) (L : String)
    (hL : ∀ s, generateCssLocator d j = some s → s.toStr ≠ L)
    (h : inv.has L = false) :
    (processCandidate d cfg inv j).has L = false := by
  rcases processCandidate_cases d cfg inv j with he | ⟨sel, hg, he⟩
  · rw [he]
    exact h
  · rw [he]
    have h1 := conflictResolve_has_false d cfg inv j L h
    unfold commitValidated
    cases hv : validateCount d sel with
    | none => exact h1
    | some count =>
      dsimp only
      by_cases hc : 0 < count
      · rw [if_pos hc, Inventory.has_set _ _ _ _ (Ne.symm (hL sel hg))]
        exact h1
      · rw [if_neg hc]
        exact h1

theorem traverse_not_has (d : Doc) (cfg : Config) (inv : Inventory)
    (cands : List Nat) (L : String)
    (hL : ∀ j ∈ cands, ∀ s, generateCssLocator d j = some s → s.toStr ≠ L)
    (h : inv.has L = false) :
    (traverse d cfg inv cands).has L = false := by
  induction cands generalizing inv with
  | nil => exact h
  | cons c cs ih =>
    rw [traverse_cons]
    exact ih _ (fun j hj => hL j (List.mem_cons_of_mem _ hj))
      (processCandidate_not_has d cfg inv c L (hL c (List.mem_cons_self _ _)) h)

/-- Claim C9: while processing a qualifying candidate whose parent has a
generable locator recorded in the inventory and is itself qualifying,
the parent's entry is deleted before the candidate's locator is
validated; if validation then fails (thrown count on an invalid
selector, or zero matches), the candidate's step amounts to exactly
that deletion — the pass removed an entry without committing a
replacement. -/
theorem C9_delete_without_replacement (d : Doc) (cfg : Config)
    (inv : Inventory) (i p : Nat) (sel psel : Sel)
    (hq : qualifying d cfg i = true)
    (hg : generateCssLocator d i = some sel)
    (hp : d.parent i = some p)
    (hpg : generateCssLocator d p = some psel)
    (hhas : inv.has psel.toStr = true)
    (hpq : qualifying d cfg p = true)
    (hval : validateCount d sel = none ∨ validateCount d sel = some 0) :
    processCandidate d cfg inv i = inv.del psel.toStr ∧
    (processCandidate d cfg inv i).has psel.toStr = false := by
  have hcr := conflictResolve_deletes d cfg inv i p psel hp hpg hhas hpq
  have hmain : processCandidate d cfg inv i = inv.del psel.toStr := by
    rw [processCandidate_qualifying d cfg inv i hq, hg]
    dsimp only
    unfold commitValidated
    rcases hval with hv | hv
    · rw [hv, hcr]
    · rw [hv]
      dsimp only
      rw [if_neg (by simp), hcr]
  exact ⟨hmain, by rw [hmain]; exact Inventory.has_del_self inv psel.toStr⟩

/-- Claim C1 (amended): if qualifying element `p` is the parent of
qualifying candidate `i`, both locators generate, the two locator
strings differ, and no candidate processed after `i` generates the
parent's locator string, then after the pass the parent's locator is
absent from the inventory — in particular the inventory never ends a
pass containing both the parent's and the child's locator.  (Without
the no-later-collision proviso, a later element whose generated
locator string coincides with the parent's can re-introduce that key:
see the counterexample.) -/
theorem C1_parent_child_exclusion (d : Doc) (cfg : Config) (inv : Inventory)
    (pre post : List Nat) (i p : Nat) (sel psel : Sel)
    (hcands : candidates d = pre ++ i :: post)
    (hp : d.parent i = some p)
    (hg : generateCssLocator d i = some sel)
    (hpg : generateCssLocator d p = some psel)
    (hq : qualifying d cfg i = true)
    (hpq : qualifying d cfg p = true)
    (hne : sel.toStr ≠ psel.toStr)
    (hpost : ∀ j ∈ post, ∀ s, generateCssLocator d j = some s →
      s.toStr ≠ psel.toStr) :
    (pass d cfg inv).has psel.toStr = false ∧
    ¬((pass d cfg inv).has psel.toStr = true ∧
      (pass d cfg inv).has sel.toStr = true) := by
  have hstep : ∀ inv0 : Inventory,
      (processCandidate d cfg inv0 i).has psel.toStr = false := by
    intro inv0
    have h1 : (conflictResolve d cfg inv0 i).has psel.toStr = false := by
      by_cases hh : inv0.has psel.toStr = true
      · rw [conflictResolve_deletes d cfg inv0 i p psel hp hpg hh hpq]
        exact Inventory.has_del_self _ _
      · exact conflictResolve_has_false d cfg inv0 i _ (by simpa using hh)
    rw [processCandidate_qualifying d cfg inv0 i hq, hg]
    dsimp only
    unfold commitValidated
    cases hv : validateCount d sel with
    | none => exact h1
    | some count =>
      dsimp only
      by_cases hc : 0 < count
      · rw [if_pos hc, Inventory.has_set _ _ _ _ (Ne.symm hne)]
        exact h1
      · rw [if_neg hc]
        exact h1
  have hfin : (pass d cfg inv).has psel.toStr = false := by
    unfold pass
    rw [hcands]
    unfold traverse
    rw [List.foldl_append]
    exact traverse_not_has d cfg _ post _ hpost (hstep _)
  refine ⟨hfin, fun hc => ?_⟩
  rw [hfin] at hc
  exact Bool.false_ne_true hc.1

/-! ### Observation loop claims -/

theorem obsInv_cases (s : ObsState) (h : ObsInv s) :
    s.active = [] ∨ ∃ t, s.active = [t] ∧ s.pollingIntervalId = some t := by
  unfold ObsInv at h
  rcases hact : s.active with _ | ⟨t, _ | ⟨u, rest⟩⟩
  · exact Or.inl rfl
  · rw [hact] at h
    exact Or.inr ⟨t, rfl, h⟩
  · rw [hact] at h
    exact h.elim

theorem obsInv_at_most_one (s : ObsState) (h : ObsInv s) :
    ∀ t t', t ∈ s.active → t' ∈ s.active → t = t' := by
  rcases obsInv_cases s h with hact | ⟨u, hact, _⟩ <;>
    intro t t' ht ht' <;> rw [hact] at ht ht'
  · cases ht
  · rw [List.mem_singleton.mp ht, List.mem_singleton.mp ht']

theorem stepObs_stop_state (s : ObsState) (hInv : ObsInv s) :
    (stepObs s .stop).1 = ⟨none, true, [], s.nextId⟩ := by
  rcases obsInv_cases s hInv with hact | ⟨t, hact, hid⟩
  · unfold stepObs
    cases hid2 : s.pollingIntervalId with
    | none => rw [hact]
    | some u =>
      dsimp only
      rw [hact]
      rfl
  · unfold stepObs
    rw [hid]
    dsimp only
    rw [hact]
    simp [List.erase_cons_head]

theorem stepObs_start_state (s : ObsState) (hInv : ObsInv s) :
    (stepObs s .start).1
      = ⟨some s.nextId, s.stopPolling, [s.nextId], s.nextId + 1⟩ := by
  rcases obsInv_cases s hInv with hact | ⟨t, hact, hid⟩
  · unfold stepObs
    cases hid2 : s.pollingIntervalId with
    | none => rw [hact]
    | some u =>
      dsimp only
      rw [hact]
      rfl
  · unfold stepObs
    rw [hid]
    dsimp only
    rw [hact]
    simp [List.erase_cons_head]

theorem stepObs_stopped (s : ObsState) (hstop : s.stopPolling = true)
    (e : ObsEvent) :
    (stepObs s e).1.stopPolling = true ∧ (stepObs s e).2 = false := by
  cases e with
  | start => exact ⟨hstop, rfl⟩
  | pulse t =>
    unfold stepObs
    dsimp only
    by_cases hm : s.active.contains t = true
    · rw [if_pos hm, if_pos hstop]
      exact ⟨hstop, rfl⟩
    · rw [if_neg hm]
      exact ⟨hstop, rfl⟩
  | stop =>
    unfold stepObs
    cases hid : s.pollingIntervalId <;> exact ⟨rfl, rfl⟩

theorem runObs_cons (s : ObsState) (e : ObsEvent) (es : List ObsEvent) :
    runObs s (e :: es) = ((runObs (stepObs s e).1 es).1,
      (stepObs s e).2 :: (runObs (stepObs s e).1 es).2) :=
  rfl

theorem runObs_stopped (s : ObsState) (hstop : s.stopPolling = true)
    (evs : List ObsEvent) : ∀ b ∈ (runObs s evs).2, b = false := by
  induction evs generalizing s with
  | nil => intro b hb; cases hb
  | cons e es ih =>
    intro b hb
    rw [runObs_cons] at hb
    rcases List.mem_cons.mp hb with hb1 | hb2
    · rw [hb1]
      exact (stepObs_stopped s hstop e).2
    · exact ih (stepObs s e).1 (stepObs_stopped s hstop e).1 b hb2

theorem stepObs_inv (s : ObsState) (hInv : ObsInv s) (e : ObsEvent) :
    ObsInv (stepObs s e).1 := by
  cases e with
  | start =>
    rw [stepObs_start_state s hInv]
    show (some s.nextId : Option Nat) = some s.nextId
    rfl
  | stop =>
    rw [stepObs_stop_state s hInv]
    trivial
  | pulse t =>
    unfold stepObs
    dsimp only
    by_cases hm : s.active.contains t = true
    · rw [if_pos hm]
      by_cases hstop : s.stopPolling = true
      · rw [if_pos hstop]
        rcases obsInv_cases s hInv with hact | ⟨u, hact, hid⟩
        · rw [hact] at hm
          simp at hm
        · rw [hid]
          dsimp only
          show ObsInv ⟨none, s.stopPolling, s.active.erase u, s.nextId⟩
          unfold ObsInv
          rw [hact]
          simp [List.erase_cons_head]
      · rw [if_neg hstop]
        exact hInv
    · rw [if_neg hm]
      exact hInv

/-- Claim C8: in the observation loop state machine, after an explicit
stop no event — timer pulse or even a renewed start — ever initiates a
traversal pass and the pending timer is cancelled; a second stop is a
no-op on the state (stop is idempotent); and a start cancels the
previously stored timer before installing the fresh one, so at most
one timer is ever alive. -/
theorem C8_observation_loop (s : ObsState) (hInv : ObsInv s) :
    (∀ e, ObsInv (stepObs s e).1) ∧
    (∀ t t', t ∈ s.active → t' ∈ s.active → t = t') ∧
    ((stepObs s .stop).1.pollingIntervalId = none ∧
      (stepObs s .stop).1.active = []) ∧
    (stepObs (stepObs s .stop).1 .stop = ((stepObs s .stop).1, false)) ∧
    (∀ evs, ∀ b ∈ (runObs (stepObs s .stop).1 evs).2, b = false) ∧
    ((stepObs s .start).1.active = [s.nextId]) := by
  have hstop := stepObs_stop_state s hInv
  refine ⟨stepObs_inv s hInv, obsInv_at_most_one s hInv, ?_, ?_, ?_, ?_⟩
  · rw [hstop]
    exact ⟨rfl, rfl⟩
  · rw [hstop]
    rfl
  · intro evs
    refine runObs_stopped _ ?_ evs
    rw [hstop]
  · rw [stepObs_start_state s hInv]

/-! ### Concrete documents for counterexamples and witnesses -/

/-- A visible body element with a large box. -/
def bodyElem : Elem :=
  { baseElem with tagName := "BODY", offsetWidth := 800, offsetHeight := 600,
                  boundingBox := some (800, 600) }

/-- A visible `div` carrying the single class `x`. -/
def divX : Elem := { baseElem with classList := ["x"], className := "x" }

/-- `body > div.x > [id=c]` with a second `div.x` under a sibling
`section`: both `div.x` elements generate `div.x:nth-of-type(1)`. -/
def dC1 : Doc where
  elems := [bodyElem, divX,
    { baseElem with id := "c", innerText := "go" },
    { baseElem with tagName := "SECTION" }, divX]
  pars := [none, some 0, some 1, some 0, some 3]

/-- `body > div.x > button#c`, with no locator string collisions. -/
def dW1 : Doc where
  elems := [bodyElem, divX,
    { baseElem with tagName := "BUTTON", id := "c", innerText := "Go" }]
  pars := [none, some 0, some 1]

/-- A body plus an element whose evaluations all reject. -/
def dC2 : Doc where
  elems := [bodyElem, { baseElem with evalThrows := true }]
  pars := [none, some 0]

/-- `body > button#submit-btn` with text `Go`. -/
def dBtn : Doc where
  elems := [bodyElem,
    { baseElem with tagName := "BUTTON", id := "submit-btn", innerText := "Go" }]
  pars := [none, some 0]

/-- A single element hidden by `display: none`. -/
def dC6 : Doc where
  elems := [{ baseElem with display := "none" }]
  pars := [none]

/-- A single element whose `title` attribute is `" ab c "`. -/
def dC7 : Doc where
  elems := [{ baseElem with attrs := [("title", " ab c ")] }]
  pars := [none]

/-- `body > div.y > input[name=a"b]`: the input's name attribute
contains a quote, so the generated locator string is an invalid
selector and validation throws. -/
def dC9 : Doc where
  elems := [bodyElem,
    { baseElem with classList := ["y"], className := "y" },
    { baseElem with tagName := "INPUT", attrs := [("name", "a\"b")] }]
  pars := [none, some 0, some 1]

/-- An inventory already holding the `div.y` parent entry. -/
def inv9 : Inventory := [("div.y", ⟨"div.y", "box", 1⟩)]

/-- Claim C1 counterexample: in `dC1`, qualifying element 1 is the
parent of qualifying element 2, both are discovered in the same pass,
and yet the final inventory contains both the parent's locator
`div.x:nth-of-type(1)` (re-introduced by element 4, which generates the
same string) and the child's locator `#c`. -/
theorem C1_counterexample :
    dC1.parent 2 = some 1 ∧
    qualifying dC1 {} 1 = true ∧ qualifying dC1 {} 2 = true ∧
    (generateCssLocator dC1 1).map Sel.toStr = some "div.x:nth-of-type(1)" ∧
    (generateCssLocator dC1 2).map Sel.toStr = some "#c" ∧
    1 ∈ candidates dC1 ∧ 2 ∈ candidates dC1 ∧
    (pass dC1 {} []).has "div.x:nth-of-type(1)" = true ∧
    (pass dC1 {} []).has "#c" = true := by decide

theorem C1_witness :
    (pass dW1 {} []).has "div.x" = false ∧
    ¬((pass dW1 {} []).has "div.x" = true ∧
      (pass dW1 {} []).has "#c" = true) :=
  C1_parent_child_exclusion dW1 {} [] [0, 1] [] 2 1 (.byId "c")
    (.structural "div" ["x"] none none none) (by decide) (by decide)
    (by decide) (by decide) (by decide) (by decide) (by decide)
    (fun j hj => absurd hj (List.not_mem_nil j))

theorem C2_witness :
    ((dC2.el 1).evalThrows = true ∨ (dC2.el 1).boundingBox = none) ∧
    processCandidate dC2 {} [] 1 = [] ∧
    traverse dC2 {} [] [1, 0] = traverse dC2 {} [] [0] :=
  ⟨Or.inl (by decide),
    C2_bad_candidate_skipped dC2 {} [] 1 [0] (Or.inl (by decide))⟩

theorem C3_witness :
    (processCandidate dC9 {} inv9 2).lookup "div.y" = inv9.lookup "div.y" ∨
    (processCandidate dC9 {} inv9 2).lookup "div.y" = none :=
  (C3_validation_elimination dC9 {} inv9 (by decide)).2.1 2
    (.byAttr "name" "a\"b") (by decide) (Or.inr (by decide)) "div.y"

theorem C4_witness :
    (dBtn.el 1).evalThrows = false ∧ (dBtn.el 1).id ≠ "" ∧
    identWf (dBtn.el 1).id = true ∧
    selCount dBtn (.byId (dBtn.el 1).id) = 1 ∧
    (generateCssLocator dBtn 1 = some (.byId (dBtn.el 1).id) ∧
      (Sel.byId (dBtn.el 1).id).toStr = "#" ++ (dBtn.el 1).id ∧
      validateCount dBtn (.byId (dBtn.el 1).id) = some 1) :=
  ⟨by decide, by decide, by decide, by decide,
    C4_unique_id dBtn 1 (by decide) (by decide) (by decide) (by decide)⟩

theorem C6_witness :
    (getElementVisibilityAndBoundingBox dC6 0).isVisible = false ∧
    qualifying dC6 {} 0 = false ∧
    processCandidate dC6 {} [] 0 = [] := by
  have h := (C6_visibility_gate dC6 {} 0).1
    (Or.inr (Or.inr (Or.inr (Or.inl (by decide)))))
  exact ⟨h.1, h.2.1, h.2.2 []⟩

/-- Claim C7 counterexample: with `nameMaxLength = 3` and element title
`" ab c "`, the extractor returns `"ab "`, which is not a trimmed
string — truncation after trimming reintroduced trailing whitespace. -/
theorem C7_counterexample :
    getElementNameCb dC7 0 3 = "ab " ∧
    jsTrim (getElementNameCb dC7 0 3) ≠ getElementNameCb dC7 0 3 := by decide

theorem C7_witness :
    (getElementNameCb dC7 0 50).length ≤ 50 :=
  (C7_name_length dC7 {} [] 0 (fun p hp => absurd hp (List.not_mem_nil p))).1

theorem C8_witness :
    (stepObs ⟨some 0, false, [0], 1⟩ .stop).1.pollingIntervalId = none ∧
    (stepObs ⟨some 0, false, [0], 1⟩ .stop).1.active = [] :=
  (C8_observation_loop ⟨some 0, false, [0], 1⟩ rfl).2.2.1

theorem C9_witness :
    processCandidate dC9 {} inv9 2 = inv9.del "div.y" ∧
    (processCandidate dC9 {} inv9 2).has "div.y" = false :=
  C9_delete_without_replacement dC9 {} inv9 2 1 (.byAttr "name" "a\"b")
    (.structural "div" ["y"] none none none) (by decide) (by decide)
    (by decide) (by decide) (by decide) (by decide) (Or.inl (by decide))

theorem C10_witness :
    (generateCssLocator dC2 0).isSome = true ∧
    ((generateCssLocator dC2 0).getD (.byId "x")).toStr ≠ "" := by
  obtain ⟨sel, hs, hne⟩ := C10_nonempty_locator dC2 0 (by decide)
    (fun h => absurd rfl h) (by decide)
  simp only [hs, Option.isSome_some, Option.getD_some]
  exact ⟨trivial, hne⟩

end Scrape
